import Mathlib

/-!
Shallow embedding of the linkchex link-validation core (Go sources under
internal/fetcher and internal/validator), together with theorems checking the
natural-language specification against it.

Machine integers (HTTP status codes, counters) are modelled as `Nat`; wall-clock
durations as `Nat` milliseconds; Go `error` values as an explicit inductive;
network nondeterminism as explicit oracles passed to the embedded functions.
-/

namespace Linkchex

/-- Go `error` values produced by the embedded code paths.
`nilError` is the zero value of `var lastErr error` (client.go:69/133);
`msg` stands for an arbitrary error (DNS, connect, TLS, timeout, bad request);
`redirectLimit` is the error returned by the CheckRedirect hook in
`NewClient` (client.go:36, "stopped after 10 redirects");
`failedAfter n last` is `fmt.Errorf("failed after %d attempts: %w", n, lastErr)`
(client.go:126/184); `pageFetch`, `pageStatus` and `extractFailed` are the three
wrapped page-level errors of `validatePageInternal` (reporter.go:620/624/630). -/
inductive GoError where
  | nilError
  | msg (s : String)
  | redirectLimit
  | failedAfter (attempts : Nat) (last : GoError)
  | pageFetch (inner : GoError)
  | pageStatus (code : Nat)
  | extractFailed (inner : GoError)
deriving DecidableEq, Repr

/-- Outcome of one `http.NewRequest` + `httpClient.Do` round inside the retry
loop of `Client.Get` / `Client.Head` (client.go:83-95, 146-158): either a
response carrying an HTTP status, or an error (request construction failure or
transport-level failure, including the redirect-cap error). -/
inductive AttemptOutcome where
  | resp (statusCode : Nat) (status : String) (finalUrl : String)
  | err (e : GoError)
deriving DecidableEq, Repr

/-- Whether an attempt outcome is an error (the retried branch of the loop). -/
def AttemptOutcome.isErr : AttemptOutcome → Bool
  | .resp _ _ _ => false
  | .err _ => true

/-- The error of an attempt outcome, if any. -/
def AttemptOutcome.errOf : AttemptOutcome → Option GoError
  | .resp _ _ _ => none
  | .err e => some e

/-- The `Response` record of fetcher/client.go:57-65. `Body` is not modelled
(no claim depends on it); `duration` is elapsed wall-clock in milliseconds. -/
structure Response where
  statusCode : Nat
  status : String
  url : String
  finalUrl : String
  error : Option GoError
  duration : Nat
deriving DecidableEq, Repr

/-- The `Client` of fetcher/client.go:11-17. The `http.Client` transport and
rate limiter are modelled separately; `retryDelay` is 1 second = 1000 ms. -/
structure Client where
  timeout : Nat
  maxRetries : Nat
  retryDelay : Nat
  userAgent : String
deriving DecidableEq, Repr

/-- `NewClient` (client.go:20-46): stores the timeout and retry count, a fixed
1-second retry delay and a fixed user-agent string. -/
def NewClient (timeout maxRetries : Nat) : Client :=
  { timeout := timeout
    maxRetries := maxRetries
    retryDelay := 1000
    userAgent := "Linkchex/0.1.0 (Link Validator)" }

/-- The CheckRedirect hook installed by `NewClient` (client.go:33-39): it is
invoked before following a redirect with `via` = the requests already made, and
fails once 10 or more requests have been made. -/
def checkRedirect (via : Nat) : Option GoError :=
  if 10 ≤ via then some .redirectLimit else none

/-- Redirect-following inside one `httpClient.Do`: `made` requests have been
issued so far and `remaining` redirect hops are still demanded by the server;
before each hop CheckRedirect is consulted. Ends in the final response unless
the hook aborts the chain. -/
def followRedirects (made remaining finalStatus : Nat) (status finalUrl : String) :
    AttemptOutcome :=
  match remaining with
  | 0 => .resp finalStatus status finalUrl
  | r + 1 =>
    match checkRedirect made with
    | some e => .err e
    | none => followRedirects (made + 1) r finalStatus status finalUrl

/-- One `httpClient.Do` against a server that answers with a chain of `hops`
redirects ending in `finalStatus`: the initial request has been made, so the
hook sees `via = 1` before the first hop. -/
def doRequest (hops finalStatus : Nat) (status finalUrl : String) : AttemptOutcome :=
  followRedirects 1 hops finalStatus status finalUrl

/-- Wall-clock cost of the loop iteration for attempt `a`: the retry sleep
`retryDelay * attempt` taken when `attempt > 0` (client.go:73-76, 137-139) plus
`times a`, the time spent by attempt `a` itself (rate-limiter wait plus the
request, up to the moment duration is measured). -/
def stepTime (c : Client) (times : Nat → Nat) (a : Nat) : Nat :=
  (if 0 < a then c.retryDelay * a else 0) + times a

/-- Total wall-clock of iterations `a, a+1, ..., a+k` of the retry loop. -/
def segElapsed (c : Client) (times : Nat → Nat) : Nat → Nat → Nat
  | a, 0 => stepTime c times a
  | a, k + 1 => stepTime c times a + segElapsed c times (a + 1) k

/-- The retry loop shared by `Client.Get` (client.go:68-129) and `Client.Head`
(client.go:132-187): iterate attempts while errors occur, keeping the last
error; an attempt yielding a response returns it at once with `error = nil` and
the elapsed time so far; exhausting all attempts returns status code 0, status
"Failed", the wrapped last error, and the total elapsed time.
`outcomes a` is what `Do` yields on attempt `a`; `times a` its wall-clock. -/
def requestLoop (c : Client) (url : String) (outcomes : Nat → AttemptOutcome)
    (times : Nat → Nat) : Nat → Nat → Nat → GoError → Response
  | attempt, remaining, elapsed, lastErr =>
    match remaining with
    | 0 =>
      { statusCode := 0, status := "Failed", url := url, finalUrl := url
        error := some (.failedAfter (c.maxRetries + 1) lastErr), duration := elapsed }
    | r + 1 =>
      let elapsed := elapsed + stepTime c times attempt
      match outcomes attempt with
      | .resp code status finalUrl =>
        { statusCode := code, status := status, url := url, finalUrl := finalUrl
          error := none, duration := elapsed }
      | .err e => requestLoop c url outcomes times (attempt + 1) r elapsed e

/-- `Client.Head` (client.go:132-187): HEAD with retry; `maxRetries + 1` total
attempts starting from attempt 0 with no elapsed time and no last error. -/
def Client.Head (c : Client) (url : String) (outcomes : Nat → AttemptOutcome)
    (times : Nat → Nat) : Response :=
  requestLoop c url outcomes times 0 (c.maxRetries + 1) 0 .nilError

/-- `Client.Get` (client.go:68-129): identical retry structure to `Head`; the
only difference in the source is that `Get` also reads the response body, which
is not modelled. -/
def Client.Get (c : Client) (url : String) (outcomes : Nat → AttemptOutcome)
    (times : Nat → Nat) : Response :=
  requestLoop c url outcomes times 0 (c.maxRetries + 1) 0 .nilError

/-- Number of loop iterations (attempts actually issued) before the loop of
`Client.Head` / `Client.Get` stops, observed on the same attempt oracle. -/
def attemptsUsedAux (outcomes : Nat → AttemptOutcome) : Nat → Nat → Nat
  | attempt, 0 => attempt
  | attempt, r + 1 =>
    match outcomes attempt with
    | .resp _ _ _ => attempt + 1
    | .err _ => attemptsUsedAux outcomes (attempt + 1) r

/-- Attempts issued by `Client.Head` on the given oracle. -/
def headAttempts (c : Client) (outcomes : Nat → AttemptOutcome) : Nat :=
  attemptsUsedAux outcomes 0 (c.maxRetries + 1)

/-- The `RateLimiter` of fetcher/ratelimiter.go:9-15, as a state machine.
`tickerRunning` records whether the background token generator goroutine is
alive; `stopDone` whether the `sync.Once` guarding `Stop` has been consumed;
`tokens` the occupancy of the capacity-1 token channel. -/
structure RateLimiter where
  requestsPerSecond : Rat
  tickerRunning : Bool
  stopDone : Bool
  tokens : Nat
deriving DecidableEq, Repr

/-- `NewRateLimiter` (ratelimiter.go:19-44): a non-positive rate stores 0 and
starts nothing; a positive rate starts the generator and pre-fills one token. -/
def NewRateLimiter (requestsPerSecond : Rat) : RateLimiter :=
  if requestsPerSecond ≤ 0 then
    { requestsPerSecond := 0, tickerRunning := false, stopDone := false, tokens := 0 }
  else
    { requestsPerSecond := requestsPerSecond, tickerRunning := true, stopDone := false
      tokens := 1 }

/-- What a call to `RateLimiter.Wait` (ratelimiter.go:63-69) does: return at
once when the rate is 0, otherwise block receiving from the token channel. -/
inductive WaitBehavior where
  | immediate
  | blockForToken
deriving DecidableEq, Repr

/-- `Wait` (ratelimiter.go:63-69). -/
def RateLimiter.wait (rl : RateLimiter) : WaitBehavior :=
  if rl.requestsPerSecond = 0 then .immediate else .blockForToken

/-- `Stop` (ratelimiter.go:72-80): with rate 0 do nothing; otherwise close the
stop channel and stop the ticker, guarded by `sync.Once`. The returned `Bool`
is whether this particular call terminated the generator. -/
def RateLimiter.stop (rl : RateLimiter) : RateLimiter × Bool :=
  if rl.requestsPerSecond = 0 then (rl, false)
  else if rl.stopDone then (rl, false)
  else ({ rl with stopDone := true, tickerRunning := false }, true)

/-- The state after `n` successive calls to `Stop`. -/
def RateLimiter.stopN (rl : RateLimiter) : Nat → RateLimiter
  | 0 => rl
  | n + 1 => ((rl.stopN n).stop).1

/-- How many of `n` successive `Stop` calls terminated the generator. -/
def RateLimiter.stopCount (rl : RateLimiter) : Nat → Nat
  | 0 => 0
  | n + 1 => rl.stopCount n + (if ((rl.stopN n).stop).2 then 1 else 0)

/-- The `Link` of the extractor (html source, `Link` struct): one extracted
reference with its tag kind, attribute, text and internal/external flag. -/
structure Link where
  url : String
  tag : String
  attr : String
  text : String
  isExternal : Bool
deriving DecidableEq, Repr

/-- The `Result` of validator/reporter.go:520-531: one validation outcome for
one (page, reference) occurrence. -/
structure Result where
  sourceURL : String
  targetURL : String
  statusCode : Nat
  status : String
  error : Option GoError
  isExternal : Bool
  tag : String
  linkText : String
  duration : Nat
  isBroken : Bool
deriving DecidableEq, Repr

/-- The `URLMatcher` of validator/patterns.go:9-12. A compiled pattern is
modelled as its matching predicate `String → Bool`. -/
structure URLMatcher where
  excludePatterns : List (String → Bool)
  includePatterns : List (String → Bool)

/-- `ShouldCheck` (patterns.go:63-86): when include patterns exist the URL must
match at least one; then any matching exclude pattern rejects it. -/
def URLMatcher.ShouldCheck (m : URLMatcher) (url : String) : Bool :=
  if 0 < m.includePatterns.length && !(m.includePatterns.any (fun p => p url)) then
    false
  else if m.excludePatterns.any (fun p => p url) then
    false
  else
    true

/-- The `Validator` of validator/reporter.go:554-563 minus its mutable cache,
which is threaded explicitly through the embedded functions (it is the only
shared mutable state; `NewValidator` starts it empty). -/
structure Validator where
  client : Client
  concurrency : Nat
  verbose : Bool
  showProgress : Bool
  skipResources : Bool
  urlMatcher : Option URLMatcher

/-- `NewValidator` (reporter.go:566-574): link concurrency is the only
caller-supplied concurrency knob; no matcher is configured initially. -/
def NewValidator (timeout maxRetries concurrency : Nat) (verbose : Bool) : Validator :=
  { client := NewClient timeout maxRetries
    concurrency := concurrency
    verbose := verbose
    showProgress := !verbose
    skipResources := false
    urlMatcher := none }

/-- The guard of validateLink's first branch (reporter.go:702):
`v.urlMatcher != nil && !v.urlMatcher.ShouldCheck(link.URL)`. -/
def Validator.shouldSkip (v : Validator) (url : String) : Bool :=
  match v.urlMatcher with
  | some m => !(m.ShouldCheck url)
  | none => false

/-- The `urlCache` map (`map[string]*Result`, reporter.go:560), as an
association list with map semantics: `insert` removes any previous binding of
the key, so keys stay unique, and `find` is map lookup. -/
def Cache : Type := List (String × Result)

/-- Lookup in the URL cache. -/
def Cache.find (c : Cache) (url : String) : Option Result :=
  (List.find? (fun e => e.1 = url) c).map (fun e => e.2)

/-- Map-semantics insertion into the URL cache (Go map assignment). -/
def Cache.insert (c : Cache) (url : String) (r : Result) : Cache :=
  (url, r) :: List.filter (fun e => decide ¬(e.1 = url)) c

/-- Number of cache entries with the given key. -/
def Cache.countKey (c : Cache) (url : String) : Nat :=
  List.countP (fun e => decide (e.1 = url)) c

/-- Number of cache entries (`len(v.urlCache)`, reporter.go:893). -/
def Cache.size (c : Cache) : Nat := List.length c

/-- The entries of the cache, as a list of key-value pairs. -/
def Cache.entries (c : Cache) : List (String × Result) := c

/-- `validateLink` (reporter.go:700-761). `head url` stands for the ambient
`v.client.Head(link.URL)` response for that URL. Skipped URLs return a fixed
Result untouched by cache and network; a cache hit copies the entry with the
current occurrence's source, tag and text; a miss probes, classifies `IsBroken`
with the if/else chain of lines 746-753 (zero value `false` otherwise), stores
the fresh result, and returns it. -/
def Validator.validateLink (v : Validator) (head : String → Response) (cache : Cache)
    (sourceURL : String) (link : Link) : Result × Cache :=
  if v.shouldSkip link.url then
    ({ sourceURL := sourceURL, targetURL := link.url, statusCode := 0
       status := "Skipped (excluded by pattern)", error := none
       isExternal := link.isExternal, tag := link.tag, linkText := link.text
       duration := 0, isBroken := false }, cache)
  else
    match cache.find link.url with
    | some cached =>
      ({ cached with sourceURL := sourceURL, tag := link.tag, linkText := link.text },
       cache)
    | none =>
      let resp := head link.url
      let result : Result :=
        { sourceURL := sourceURL, targetURL := link.url, statusCode := resp.statusCode
          status := resp.status, error := resp.error, isExternal := link.isExternal
          tag := link.tag, linkText := link.text, duration := resp.duration
          isBroken :=
            if resp.error.isSome then true
            else if 400 ≤ resp.statusCode then true
            else if 300 ≤ resp.statusCode ∧ resp.statusCode < 400 then false
            else false }
      (result, cache.insert link.url result)

/-- `validateLinksInternal` (reporter.go:650-697) under one admissible
sequential interleaving: goroutines complete (and hence touch the cache) in the
order given by `order`; the completion for slot `idx` validates `links[idx]`
and writes the result at index `idx` of the output buffer (`results[idx] = ...`,
line 681). A buffer slot not yet written holds `none`. -/
def runLinksOrder (v : Validator) (head : String → Response) (sourceURL : String)
    (links : List Link) : List Nat → (Nat → Option Result) → Cache →
    (Nat → Option Result) × Cache
  | [], buf, cache => (buf, cache)
  | idx :: rest, buf, cache =>
    match links[idx]? with
    | none => runLinksOrder v head sourceURL links rest buf cache
    | some l =>
      let rc := v.validateLink head cache sourceURL l
      runLinksOrder v head sourceURL links rest
        (fun j => if j = idx then some rc.1 else buf j) rc.2

/-- `validateLinksInternal` with an explicit completion order: starts from the
all-unwritten buffer. -/
def Validator.validateLinksOrdered (v : Validator) (head : String → Response)
    (sourceURL : String) (links : List Link) (cache : Cache) (order : List Nat) :
    (Nat → Option Result) × Cache :=
  runLinksOrder v head sourceURL links order (fun _ => none) cache

/-- `validateLinksInternal` under the in-order interleaving (reference order),
returning the results slice directly; used by the page pipeline embedding. -/
def Validator.validateLinks (v : Validator) (head : String → Response)
    (sourceURL : String) : List Link → Cache → List Result × Cache
  | [], cache => ([], cache)
  | l :: rest, cache =>
    let rc := v.validateLink head cache sourceURL l
    let tail := v.validateLinks head sourceURL rest rc.2
    (rc.1 :: tail.1, tail.2)

/-- Character-level test that `pre` begins `s`: the `strings.HasPrefix` of the
scheme checks in FilterLinks, stated over the strings' character lists. -/
def charsStart : List Char → List Char → Bool
  | [], _ => true
  | _ :: _, [] => false
  | p :: ps, c :: cs => p == c && charsStart ps cs

/-- String-level front-match used by the FilterLinks scheme checks. -/
def strStarts (s pre : String) : Bool :=
  charsStart pre.data s.data

/-- `FilterLinks` (extractor source): drop URLs already seen (marking them seen
before any other check), drop external links unless requested, and drop
javascript:, mailto:, tel: and fragment-only URLs. -/
def filterLinksAux (includeExternal : Bool) : List Link → List String → List Link
  | [], _ => []
  | l :: rest, seen =>
    if seen.contains l.url then filterLinksAux includeExternal rest seen
    else
      let seen := l.url :: seen
      if !includeExternal && l.isExternal then filterLinksAux includeExternal rest seen
      else if strStarts l.url "javascript:" || strStarts l.url "mailto:" ||
          strStarts l.url "tel:" || strStarts l.url "#" then
        filterLinksAux includeExternal rest seen
      else l :: filterLinksAux includeExternal rest seen

/-- `FilterLinks(links, includeExternal)` with an initially empty seen set. -/
def FilterLinks (links : List Link) (includeExternal : Bool) : List Link :=
  filterLinksAux includeExternal links []

/-- The ambient network and extractor, as oracles: `get p` is the
`v.client.Get(pageURL)` response for page `p`; `extract p` the
`fetcher.ExtractLinks` outcome on that page's body; `head u` the
`v.client.Head(u)` response for link URL `u`. -/
structure World where
  get : String → Response
  extract : String → Except GoError (List Link)
  head : String → Response

/-- `validatePageInternal` (reporter.go:612-642): fetch the page, require a nil
error and status 200, extract and filter its links, then validate them in
order; each failure wraps the cause and leaves the cache untouched. -/
def Validator.validatePageInternal (v : Validator) (w : World) (cache : Cache)
    (pageURL : String) (checkExternal : Bool) :
    Except GoError (List Result) × Cache :=
  let resp := w.get pageURL
  match resp.error with
  | some e => (.error (.pageFetch e), cache)
  | none =>
    if resp.statusCode ≠ 200 then (.error (.pageStatus resp.statusCode), cache)
    else
      match w.extract pageURL with
      | .error e => (.error (.extractFailed e), cache)
      | .ok links =>
        let rc := v.validateLinks w.head pageURL (FilterLinks links checkExternal) cache
        (.ok rc.1, rc.2)

/-- The error, if any, that `validatePageInternal` reports for a page: the
observable page-failure condition of claim C8. -/
def pageFailure (w : World) (pageURL : String) : Option GoError :=
  match (w.get pageURL).error with
  | some e => some (.pageFetch e)
  | none =>
    if (w.get pageURL).statusCode ≠ 200 then some (.pageStatus (w.get pageURL).statusCode)
    else
      match w.extract pageURL with
      | .error e => some (.extractFailed e)
      | .ok _ => none

/-- The synthetic Result appended for a failed page (reporter.go:837-844). -/
def syntheticResult (pageURL : String) (e : GoError) : Result :=
  { sourceURL := "sitemap", targetURL := pageURL, statusCode := 0
    status := "Failed", error := some e, isExternal := false, tag := ""
    linkText := "", duration := 0, isBroken := true }

/-- Whether a Result is one of the synthetic page-failure records: its error is
a wrapped page-level error, a shape `validateLink` never produces. -/
def Result.isSynthetic (r : Result) : Bool :=
  match r.error with
  | some (.pageFetch _) => true
  | some (.pageStatus _) => true
  | some (.extractFailed _) => true
  | _ => false

/-- The per-page contribution to `report.Results` in `ValidateMultiplePages`
(reporter.go:831-849): a failing page contributes exactly its synthetic Result,
a successful page its per-reference results. -/
def Validator.pageChunk (v : Validator) (w : World) (cache : Cache) (pageURL : String)
    (checkExternal : Bool) : List Result × Cache :=
  match v.validatePageInternal w cache pageURL checkExternal with
  | (.error e, c) => ([syntheticResult pageURL e], c)
  | (.ok rs, c) => (rs, c)

/-- The result-collection loop of `ValidateMultiplePages` over all pages, under
the sequential completion order in which pages are listed; the cache is the
state shared between pages. -/
def Validator.runPages (v : Validator) (w : World) (checkExternal : Bool) :
    List String → Cache → List Result × Cache
  | [], cache => ([], cache)
  | p :: rest, cache =>
    let chunk := v.pageChunk w cache p checkExternal
    let tail := v.runPages w checkExternal rest chunk.2
    (chunk.1 ++ tail.1, tail.2)

/-- Capacity of the page-level semaphore in `ValidateMultiplePages`
(reporter.go:792-796): a hardcoded 10, lowered to the page count when fewer. -/
def pageSemCapacity (numPageURLs : Nat) : Nat :=
  if numPageURLs < 10 then numPageURLs else 10

/-- The three buckets of the statistics loop in `ValidateMultiplePages`
(reporter.go:862-868); the aggregation has no Skipped bucket. -/
inductive AggClass where
  | success
  | warning
  | broken
deriving DecidableEq, Repr

/-- The bucket a Result falls into in the statistics loop (reporter.go:862-868):
broken when `IsBroken`, else warning on a 3xx status, else success. -/
def aggClass (r : Result) : AggClass :=
  if r.isBroken then .broken
  else if 300 ≤ r.statusCode ∧ r.statusCode < 400 then .warning
  else .success

/-- Classification rule exactly as the specification words it (spec §4.3):
`Error != nil → Broken; StatusCode >= 400 → Broken; 300 <= StatusCode < 400 →
Warning; otherwise Success`. Stated from the spec, for comparison with the
code-derived `aggClass` over `validateLink`'s `IsBroken`. -/
def specClassify (error : Option GoError) (statusCode : Nat) : AggClass :=
  if error ≠ none then .broken
  else if 400 ≤ statusCode then .broken
  else if 300 ≤ statusCode ∧ statusCode < 400 then .warning
  else .success

/-- The `ValidationReport` of reporter.go:533-551. The two Go count maps are
modelled as total functions defaulting to 0 (Go map reads of absent keys). -/
structure ValidationReport where
  results : List Result
  totalLinks : Nat
  brokenLinks : Nat
  warningLinks : Nat
  successLinks : Nat
  externalLinks : Nat
  internalLinks : Nat
  cachedLinks : Nat
  uniqueURLs : Nat
  pagesProcessed : Nat
  linksByTag : String → Nat
  linksByStatus : Nat → Nat

/-- Increment of a Go count map at a key (`m[k]++`). -/
def bump [DecidableEq α] (f : α → Nat) (k : α) : α → Nat :=
  fun x => if x = k then f x + 1 else f x

/-- One iteration of the statistics loop of `ValidateMultiplePages`
(reporter.go:855-886): bump the total, exactly one of broken/warning/success,
exactly one of external/internal, the per-tag map when the tag is nonempty, and
the per-status map when the status code is positive. -/
def statsStep (rep : ValidationReport) (r : Result) : ValidationReport :=
  let rep := { rep with totalLinks := rep.totalLinks + 1 }
  let rep :=
    if r.isBroken then { rep with brokenLinks := rep.brokenLinks + 1 }
    else if 300 ≤ r.statusCode ∧ r.statusCode < 400 then
      { rep with warningLinks := rep.warningLinks + 1 }
    else { rep with successLinks := rep.successLinks + 1 }
  let rep :=
    if r.isExternal then { rep with externalLinks := rep.externalLinks + 1 }
    else { rep with internalLinks := rep.internalLinks + 1 }
  let rep :=
    if r.tag ≠ "" then { rep with linksByTag := bump rep.linksByTag r.tag } else rep
  if 0 < r.statusCode then { rep with linksByStatus := bump rep.linksByStatus r.statusCode }
  else rep

/-- Cardinality of the `uniqueURLs` set built at reporter.go:859/889. -/
def uniqueCount (results : List Result) : Nat :=
  (List.dedup (results.map (fun r => r.targetURL))).length

/-- `ValidateMultiplePages` (reporter.go:764-897): collect all page chunks into
the flat result list, then fold the statistics loop over it, and record the
unique-URL count and the cache size. Timing fields and the `CheckExternal` echo
are omitted. Returns the report together with the final cache. -/
def Validator.ValidateMultiplePages (v : Validator) (w : World)
    (pageURLs : List String) (checkExternal : Bool) (cache : Cache) :
    ValidationReport × Cache :=
  let rc := v.runPages w checkExternal pageURLs cache
  let rep0 : ValidationReport :=
    { results := rc.1, totalLinks := 0, brokenLinks := 0, warningLinks := 0
      successLinks := 0, externalLinks := 0, internalLinks := 0, cachedLinks := 0
      uniqueURLs := 0, pagesProcessed := pageURLs.length
      linksByTag := fun _ => 0, linksByStatus := fun _ => 0 }
  let rep := rc.1.foldl statsStep rep0
  ({ rep with uniqueURLs := uniqueCount rc.1, cachedLinks := rc.2.size }, rc.2)

/-- Well-formedness of a Result's `IsBroken` flag relative to its error and
status code: exactly what the if/else chain of reporter.go:746-753 (with the
struct zero value `false`) computes. Every Result the embedded validator
produces satisfies it. -/
def wfResult (r : Result) : Prop :=
  r.isBroken = (r.error.isSome || decide (400 ≤ r.statusCode))

/-- Invariant of the URL cache maintained throughout a run (and trivially true
of the empty cache `NewValidator` starts from): keys are unique, each entry is
stored under its own target URL, and each entry's `IsBroken` flag is
well-formed. -/
def CacheInv (c : Cache) : Prop :=
  (∀ u : String, c.countKey u ≤ 1)
  ∧ ∀ p ∈ c.entries, p.2.targetURL = p.1 ∧ wfResult p.2

/-- The occurrence-identifying fields of a Result produced for link `l` found
on page `sourceURL`: the source page, target URL, tag and link text (a cache
hit keeps the cached `IsExternal`, so that field is not identifying). -/
def resultOfLink (sourceURL : String) (l : Link) (r : Result) : Prop :=
  r.sourceURL = sourceURL ∧ r.targetURL = l.url ∧ r.tag = l.tag ∧ r.linkText = l.text

/-- Concrete matcher for the C4 witness: excludes one literal URL. -/
def c4Matcher : URLMatcher :=
  { excludePatterns := [fun u => u = "https://x/private"], includePatterns := [] }

/-- Concrete validator for the C4 witness: `NewValidator` with `c4Matcher`
installed (SetURLMatcher, reporter.go:597-599). -/
def c4Validator : Validator :=
  { NewValidator 30 3 50 false with urlMatcher := some c4Matcher }

/-- Concrete excluded link for the C4 witness. -/
def c4Link : Link :=
  { url := "https://x/private", tag := "a", attr := "href", text := "secret"
    isExternal := false }

/-- Concrete attempt oracle for the C2 witness: transport failure on attempt 0,
then a 404 response (a status that must not be retried). -/
def c2Outcomes : Nat → AttemptOutcome :=
  fun a => if a = 0 then .err (.msg "dial tcp: lookup failed") else
    .resp 404 "404 Not Found" "https://x/p"

/-- Concrete attempt oracle for the C2 witness exhaustion case: every attempt
fails at transport level. -/
def c2OutcomesErr : Nat → AttemptOutcome :=
  fun _ => .err (.msg "connect: connection refused")

/-- Concrete per-attempt wall-clock for the C2 witness. -/
def c2Times : Nat → Nat := fun _ => 7

/-- Concrete attempt oracle for the C3 counterexample: attempt 0 runs into the
10-redirect cap, attempt 1 gets a 200. -/
def c3Outcomes : Nat → AttemptOutcome :=
  fun a => if a = 0 then doRequest 12 200 "200 OK" "https://x/final" else
    .resp 200 "200 OK" "https://x/final"

/-- Concrete attempt oracle for the C3 witness: every attempt runs into the
redirect cap. -/
def c3OutcomesAllRedirect : Nat → AttemptOutcome := fun _ => .err .redirectLimit

/-- Concrete per-attempt wall-clock for the C3 theorems. -/
def c3Times : Nat → Nat := fun _ => 5

/-- A plain anchor link to the given URL, used by several concrete worlds. -/
def anchorLink (u : String) : Link :=
  { url := u, tag := "a", attr := "href", text := "", isExternal := false }

/-- A 200 page response, used by several concrete worlds. -/
def okPage (p : String) : Response :=
  { statusCode := 200, status := "200 OK", url := p, finalUrl := p, error := none
    duration := 2 }

/-- Concrete validator for the C1 witness: no matcher configured. -/
def c1Validator : Validator := NewValidator 30 3 50 false

/-- Concrete Head oracle for the C1 witness: URLs answering with the boundary
status codes 299, 300, 399 and 400, and one URL failing at transport level
(status code 0, wrapped error). -/
def c1Head : String → Response := fun u =>
  if u = "https://t/299" then
    { statusCode := 299, status := "299", url := u, finalUrl := u, error := none
      duration := 1 }
  else if u = "https://t/300" then
    { statusCode := 300, status := "300 Multiple Choices", url := u, finalUrl := u
      error := none, duration := 1 }
  else if u = "https://t/399" then
    { statusCode := 399, status := "399", url := u, finalUrl := u, error := none
      duration := 1 }
  else if u = "https://t/400" then
    { statusCode := 400, status := "400 Bad Request", url := u, finalUrl := u
      error := none, duration := 1 }
  else
    { statusCode := 0, status := "Failed", url := u, finalUrl := u
      error := some (.failedAfter 4 (.msg "dial tcp: lookup failed")), duration := 9 }

/-- Concrete world for the C1 witness: one page referencing the five URLs. -/
def c1World : World :=
  { get := okPage
    extract := fun _ => .ok [anchorLink "https://t/299", anchorLink "https://t/300",
      anchorLink "https://t/399", anchorLink "https://t/400", anchorLink "https://t/err"]
    head := c1Head }

/-- The Result the C1 run produces for status `code` at URL `u`. -/
def c1FreshResult (u : String) (code : Nat) (st : String) : Result :=
  { sourceURL := "https://s/p", targetURL := u, statusCode := code, status := st
    error := none, isExternal := false, tag := "a", linkText := ""
    duration := 1, isBroken := decide (400 ≤ code) }

/-- The Result the C1 run produces for the transport-failing URL. -/
def c1ErrResult : Result :=
  { sourceURL := "https://s/p", targetURL := "https://t/err", statusCode := 0
    status := "Failed", error := some (.failedAfter 4 (.msg "dial tcp: lookup failed"))
    isExternal := false, tag := "a", linkText := "", duration := 9, isBroken := true }

/-- Concrete matcher for the C5 counterexample: excludes the one referenced
URL. -/
def c5Matcher : URLMatcher :=
  { excludePatterns := [fun u => u = "https://x/a"], includePatterns := [] }

/-- Concrete validator for the C5 counterexample: matcher installed. -/
def c5ExclValidator : Validator :=
  { NewValidator 30 3 50 false with urlMatcher := some c5Matcher }

/-- Concrete world for the C5 theorems: one page referencing one URL, whose
probe answers 200 in 3 ms. -/
def c5World : World :=
  { get := okPage
    extract := fun _ => .ok [anchorLink "https://x/a"]
    head := fun u =>
      { statusCode := 200, status := "200 OK", url := u, finalUrl := u, error := none
        duration := 3 } }

/-- Concrete validator for the C5 witness: no matcher configured. -/
def c5Validator : Validator := NewValidator 30 3 50 false

/-- The fresh Result the C5 witness run produces for the one referenced URL. -/
def c5FreshResult : Result :=
  { sourceURL := "https://x/p", targetURL := "https://x/a", statusCode := 200
    status := "200 OK", error := none, isExternal := false, tag := "a"
    linkText := "", duration := 3, isBroken := false }

/-- Concrete validator for the C6 witness: no matcher configured. -/
def c6Validator : Validator := NewValidator 30 3 50 false

/-- Concrete Head oracle for the C6 witness. -/
def c6Head : String → Response := fun u =>
  { statusCode := 200, status := "200 OK", url := u, finalUrl := u, error := none
    duration := 4 }

/-- Concrete reference list for the C6 witness. -/
def c6Links : List Link :=
  [anchorLink "https://x/0", anchorLink "https://x/1", anchorLink "https://x/2"]

/-- Concrete world for the C8 witness: page "https://s/bad" fails with a 404
page status, the other pages succeed with one reference each. -/
def c8World : World :=
  { get := fun p =>
      if p = "https://s/bad" then
        { statusCode := 404, status := "404 Not Found", url := p, finalUrl := p
          error := none, duration := 2 }
      else okPage p
    extract := fun p => .ok [anchorLink (p ++ "#ref")]
    head := fun u =>
      { statusCode := 200, status := "200 OK", url := u, finalUrl := u, error := none
        duration := 4 } }

/-- Concrete validator for the C8 witness. -/
def c8Validator : Validator := NewValidator 30 3 50 false

/-- Concrete matcher for the C10 witness: excludes the one referenced URL, so
the run produces one Skipped result. -/
def c10Matcher : URLMatcher :=
  { excludePatterns := [fun u => u = "https://x/skip"], includePatterns := [] }

/-- Concrete validator for the C10 witness: matcher installed. -/
def c10Validator : Validator :=
  { NewValidator 30 3 50 false with urlMatcher := some c10Matcher }

/-- The Skipped result the C10 witness run produces. -/
def c10Skipped : Result :=
  { sourceURL := "https://x/p", targetURL := "https://x/skip", statusCode := 0
    status := "Skipped (excluded by pattern)", error := none, isExternal := false
    tag := "a", linkText := "", duration := 0, isBroken := false }

/-- Concrete world for the C10 witness: one page referencing the excluded URL. -/
def c10World : World :=
  { get := okPage
    extract := fun _ => .ok [anchorLink "https://x/skip"]
    head := fun u =>
      { statusCode := 200, status := "200 OK", url := u, finalUrl := u, error := none
        duration := 3 } }

theorem isErr_exists_err {o : AttemptOutcome} (h : o.isErr = true) :
    ∃ e, o = .err e := by
  cases o with
  | resp code st fu => simp [AttemptOutcome.isErr] at h
  | err e => exact ⟨e, rfl⟩

theorem requestLoop_resp (c : Client) (url : String) (outcomes : Nat → AttemptOutcome)
    (times : Nat → Nat) :
    ∀ (k attempt remaining elapsed : Nat) (le : GoError) (code : Nat) (st fu : String),
      k < remaining →
      (∀ j, j < k → (outcomes (attempt + j)).isErr = true) →
      outcomes (attempt + k) = .resp code st fu →
      requestLoop c url outcomes times attempt remaining elapsed le =
        { statusCode := code, status := st, url := url, finalUrl := fu
          error := none, duration := elapsed + segElapsed c times attempt k } := by
  intro k
  induction k with
  | zero =>
    intro attempt remaining elapsed le code st fu hlt _ hout
    match remaining, hlt with
    | r + 1, _ =>
      rw [Nat.add_zero] at hout
      simp [requestLoop, hout, segElapsed]
  | succ k ih =>
    intro attempt remaining elapsed le code st fu hlt hprev hout
    match remaining, hlt with
    | r + 1, hlt =>
      obtain ⟨e, he⟩ := isErr_exists_err (by simpa using hprev 0 (Nat.succ_pos k))
      have hstep : requestLoop c url outcomes times attempt (r + 1) elapsed le =
          requestLoop c url outcomes times (attempt + 1) r
            (elapsed + stepTime c times attempt) e := by
        simp [requestLoop, he]
      rw [hstep, ih (attempt + 1) r (elapsed + stepTime c times attempt) e code st fu
        (by omega)
        (fun j hj => by
          have := hprev (j + 1) (by omega)
          simpa [Nat.add_assoc, Nat.add_comm 1 j] using this)
        (by
          rw [show attempt + 1 + k = attempt + (k + 1) by omega]
          exact hout)]
      simp [segElapsed, Nat.add_assoc]

theorem requestLoop_exhaust (c : Client) (url : String) (outcomes : Nat → AttemptOutcome)
    (times : Nat → Nat) :
    ∀ (r attempt elapsed : Nat) (le e : GoError),
      (∀ j, j ≤ r → (outcomes (attempt + j)).isErr = true) →
      outcomes (attempt + r) = .err e →
      requestLoop c url outcomes times attempt (r + 1) elapsed le =
        { statusCode := 0, status := "Failed", url := url, finalUrl := url
          error := some (.failedAfter (c.maxRetries + 1) e)
          duration := elapsed + segElapsed c times attempt r } := by
  intro r
  induction r with
  | zero =>
    intro attempt elapsed le e _ he
    rw [Nat.add_zero] at he
    simp [requestLoop, he, segElapsed]
  | succ r ih =>
    intro attempt elapsed le e hall he
    obtain ⟨e0, he0⟩ := isErr_exists_err (by simpa using hall 0 (Nat.zero_le _))
    have hstep : requestLoop c url outcomes times attempt (r + 1 + 1) elapsed le =
        requestLoop c url outcomes times (attempt + 1) (r + 1)
          (elapsed + stepTime c times attempt) e0 := by
      simp [requestLoop, he0]
    rw [hstep, ih (attempt + 1) (elapsed + stepTime c times attempt) e0 e
      (fun j hj => by
        have := hall (j + 1) (by omega)
        simpa [Nat.add_assoc, Nat.add_comm 1 j] using this)
      (by
        rw [show attempt + 1 + r = attempt + (r + 1) by omega]
        exact he)]
    simp [segElapsed, Nat.add_assoc]

theorem attemptsUsedAux_resp (outcomes : Nat → AttemptOutcome) :
    ∀ (k attempt remaining : Nat),
      k < remaining →
      (∀ j, j < k → (outcomes (attempt + j)).isErr = true) →
      (outcomes (attempt + k)).isErr = false →
      attemptsUsedAux outcomes attempt remaining = attempt + k + 1 := by
  intro k
  induction k with
  | zero =>
    intro attempt remaining hlt _ hresp
    match remaining, hlt with
    | r + 1, _ =>
      rw [Nat.add_zero] at hresp
      cases hout : outcomes attempt with
      | resp code st fu => simp [attemptsUsedAux, hout]
      | err e => rw [hout] at hresp; simp [AttemptOutcome.isErr] at hresp
  | succ k ih =>
    intro attempt remaining hlt hprev hresp
    match remaining, hlt with
    | r + 1, hlt =>
      obtain ⟨e, he⟩ := isErr_exists_err (by simpa using hprev 0 (Nat.succ_pos k))
      have hstep : attemptsUsedAux outcomes attempt (r + 1) =
          attemptsUsedAux outcomes (attempt + 1) r := by
        simp [attemptsUsedAux, he]
      rw [hstep, ih (attempt + 1) r (by omega)
        (fun j hj => by
          have := hprev (j + 1) (by omega)
          simpa [Nat.add_assoc, Nat.add_comm 1 j] using this)
        (by
          rw [show attempt + 1 + k = attempt + (k + 1) by omega]
          exact hresp)]
      omega

theorem attemptsUsedAux_exhaust (outcomes : Nat → AttemptOutcome) :
    ∀ (remaining attempt : Nat),
      (∀ j, j < remaining → (outcomes (attempt + j)).isErr = true) →
      attemptsUsedAux outcomes attempt remaining = attempt + remaining := by
  intro remaining
  induction remaining with
  | zero => intro attempt _; simp [attemptsUsedAux]
  | succ r ih =>
    intro attempt hall
    obtain ⟨e, he⟩ := isErr_exists_err (by simpa using hall 0 (Nat.succ_pos r))
    have hstep : attemptsUsedAux outcomes attempt (r + 1) =
        attemptsUsedAux outcomes (attempt + 1) r := by
      simp [attemptsUsedAux, he]
    rw [hstep, ih (attempt + 1)
      (fun j hj => by
        have := hall (j + 1) (by omega)
        simpa [Nat.add_assoc, Nat.add_comm 1 j] using this)]
    omega

/-- C2: for every URL probed by Get or Head, a transport-level failure is
retried up to `maxRetries` additional times, attempt `a` being preceded by a
sleep of `retryDelay * a`; an attempt that yields a response with any HTTP
status code is returned immediately with `Error = nil` and is never retried
(the loop issues exactly `k + 1` attempts when attempt `k` responds); and when
all `maxRetries + 1` attempts fail at transport level the outcome has
`StatusCode = 0`, `Error` = the last transport error wrapped as "failed after
maxRetries+1 attempts", and `Duration` = the total elapsed time over every
sleep and every attempt. `Get` has exactly the retry behavior of `Head`. -/
theorem C2_retry_policy (c : Client) (url : String) (outcomes : Nat → AttemptOutcome)
    (times : Nat → Nat) :
    (c.Get url outcomes times = c.Head url outcomes times)
    ∧ (∀ a, 0 < a → stepTime c times a = c.retryDelay * a + times a)
    ∧ (∀ k code st fu, k ≤ c.maxRetries →
        (∀ j, j < k → (outcomes j).isErr = true) →
        outcomes k = .resp code st fu →
        c.Head url outcomes times =
          { statusCode := code, status := st, url := url, finalUrl := fu
            error := none, duration := segElapsed c times 0 k }
        ∧ headAttempts c outcomes = k + 1)
    ∧ (∀ e, (∀ j, j ≤ c.maxRetries → (outcomes j).isErr = true) →
        outcomes c.maxRetries = .err e →
        c.Head url outcomes times =
          { statusCode := 0, status := "Failed", url := url, finalUrl := url
            error := some (.failedAfter (c.maxRetries + 1) e)
            duration := segElapsed c times 0 c.maxRetries }
        ∧ headAttempts c outcomes = c.maxRetries + 1) := by
  refine ⟨rfl, fun a ha => by simp [stepTime, ha], ?_, ?_⟩
  · intro k code st fu hk hprev hout
    constructor
    · have := requestLoop_resp c url outcomes times k 0 (c.maxRetries + 1) 0 .nilError
        code st fu (by omega) (fun j hj => by simpa using hprev j hj) (by simpa using hout)
      simpa [Client.Head] using this
    · have := attemptsUsedAux_resp outcomes k 0 (c.maxRetries + 1) (by omega)
        (fun j hj => by simpa using hprev j hj)
        (by simp [hout, AttemptOutcome.isErr])
      simpa [headAttempts] using this
  · intro e hall hlast
    constructor
    · have := requestLoop_exhaust c url outcomes times c.maxRetries 0 0 .nilError e
        (fun j hj => by simpa using hall j hj) (by simpa using hlast)
      simpa [Client.Head] using this
    · have := attemptsUsedAux_exhaust outcomes (c.maxRetries + 1) 0
        (fun j hj => by simpa using hall j (by omega))
      simpa [headAttempts] using this

/-- Witness for C2 at concrete inputs: with `maxRetries = 2`, a transport
failure on attempt 0 followed by a 404 on attempt 1 yields the 404 immediately
after exactly 2 attempts; with every attempt failing, 3 attempts are made and
the wrapped last error surfaces with status code 0 and the summed duration. -/
theorem C2_retry_policy_witness :
    ((NewClient 30 2).Head "https://x/p" c2Outcomes c2Times =
      { statusCode := 404, status := "404 Not Found", url := "https://x/p"
        finalUrl := "https://x/p", error := none
        duration := segElapsed (NewClient 30 2) c2Times 0 1 }
      ∧ headAttempts (NewClient 30 2) c2Outcomes = 1 + 1)
    ∧ ((NewClient 30 2).Head "https://x/p" c2OutcomesErr c2Times =
      { statusCode := 0, status := "Failed", url := "https://x/p"
        finalUrl := "https://x/p"
        error := some (.failedAfter ((NewClient 30 2).maxRetries + 1)
          (.msg "connect: connection refused"))
        duration := segElapsed (NewClient 30 2) c2Times 0 (NewClient 30 2).maxRetries }
      ∧ headAttempts (NewClient 30 2) c2OutcomesErr = (NewClient 30 2).maxRetries + 1) := by
  constructor
  · exact (C2_retry_policy (NewClient 30 2) "https://x/p" c2Outcomes c2Times).2.2.1
      1 404 "404 Not Found" "https://x/p" (by decide) (by decide) (by decide)
  · exact (C2_retry_policy (NewClient 30 2) "https://x/p" c2OutcomesErr c2Times).2.2.2
      (.msg "connect: connection refused") (by decide) (by decide)

theorem followRedirects_ok (code : Nat) (st fu : String) :
    ∀ (remaining made : Nat), made + remaining ≤ 10 →
      followRedirects made remaining code st fu = .resp code st fu := by
  intro remaining
  induction remaining with
  | zero => intro made _; simp [followRedirects]
  | succ r ih =>
    intro made h
    have hm : ¬ 10 ≤ made := by omega
    simp only [followRedirects, checkRedirect, if_neg hm]
    exact ih (made + 1) (by omega)

theorem followRedirects_cap (code : Nat) (st fu : String) :
    ∀ (r made : Nat), 10 ≤ made + r →
      followRedirects made (r + 1) code st fu = .err .redirectLimit := by
  intro r
  induction r with
  | zero =>
    intro made h
    rw [Nat.add_zero] at h
    simp [followRedirects, checkRedirect, h]
  | succ r ih =>
    intro made h
    by_cases hm : 10 ≤ made
    · simp [followRedirects, checkRedirect, hm]
    · simp only [followRedirects, checkRedirect, if_neg hm]
      exact ih (made + 1) (by omega)

/-- C3 counterexample to "the redirect-limit failure is terminal for that URL:
it is not retried on subsequent attempts": with `maxRetries = 1`, attempt 0
runs into the 10-hop cap (a 12-hop chain yields the redirect-limit error), yet
the loop issues a second attempt and returns its 200 response, so the outcome
is not a transport failure and the failure was retried. -/
theorem C3_redirect_counterexample :
    c3Outcomes 0 = .err .redirectLimit
    ∧ headAttempts (NewClient 30 1) c3Outcomes = 2
    ∧ ((NewClient 30 1).Head "https://x/r" c3Outcomes c3Times).statusCode = 200
    ∧ ((NewClient 30 1).Head "https://x/r" c3Outcomes c3Times).error = none := by
  refine ⟨by decide, by decide, by decide, by decide⟩

/-- C3 as amended: exceeding the 10-hop redirect cap is terminal for that
attempt only — the attempt yields the redirect-limit error (while chains within
the cap yield the final response) — and the error is then treated exactly like
any other transport failure: it is retried on subsequent attempts, and when
every attempt hits the cap the outcome surfaces as a transport failure with
`StatusCode = 0` and the wrapped redirect-limit error. -/
theorem C3_redirect_cap (c : Client) (url : String) (times : Nat → Nat)
    (outcomes : Nat → AttemptOutcome) :
    (∀ hops code st fu, 10 ≤ hops → doRequest hops code st fu = .err .redirectLimit)
    ∧ (∀ hops code st fu, hops < 10 → doRequest hops code st fu = .resp code st fu)
    ∧ ((∀ j, j ≤ c.maxRetries → outcomes j = .err .redirectLimit) →
        c.Head url outcomes times =
          { statusCode := 0, status := "Failed", url := url, finalUrl := url
            error := some (.failedAfter (c.maxRetries + 1) .redirectLimit)
            duration := segElapsed c times 0 c.maxRetries }
        ∧ headAttempts c outcomes = c.maxRetries + 1) := by
  refine ⟨?_, ?_, ?_⟩
  · intro hops code st fu h
    match hops, h with
    | r + 1, h => exact followRedirects_cap code st fu r 1 (by omega)
  · intro hops code st fu h
    exact followRedirects_ok code st fu hops 1 (by omega)
  · intro hall
    exact (C2_retry_policy c url outcomes times).2.2.2 .redirectLimit
      (fun j hj => by simp [hall j hj, AttemptOutcome.isErr])
      (hall c.maxRetries (Nat.le_refl _))

/-- Witness for C3 as amended: a 10-hop chain errs with the redirect-limit
error, a 9-hop chain responds, and with `maxRetries = 1` and both attempts
hitting the cap, 2 attempts are made and the transport-failure outcome
surfaces. -/
theorem C3_redirect_cap_witness :
    doRequest 10 200 "200 OK" "https://x/f" = .err .redirectLimit
    ∧ doRequest 9 200 "200 OK" "https://x/f" = .resp 200 "200 OK" "https://x/f"
    ∧ ((NewClient 30 1).Head "https://x/r" c3OutcomesAllRedirect c3Times =
        { statusCode := 0, status := "Failed", url := "https://x/r"
          finalUrl := "https://x/r"
          error := some (.failedAfter ((NewClient 30 1).maxRetries + 1) .redirectLimit)
          duration := segElapsed (NewClient 30 1) c3Times 0 (NewClient 30 1).maxRetries }
      ∧ headAttempts (NewClient 30 1) c3OutcomesAllRedirect =
          (NewClient 30 1).maxRetries + 1) := by
  refine ⟨?_, ?_, ?_⟩
  · exact (C3_redirect_cap (NewClient 30 1) "https://x/r" c3Times c3OutcomesAllRedirect).1
      10 200 "200 OK" "https://x/f" (by decide)
  · exact (C3_redirect_cap (NewClient 30 1) "https://x/r" c3Times c3OutcomesAllRedirect).2.1
      9 200 "200 OK" "https://x/f" (by decide)
  · exact (C3_redirect_cap (NewClient 30 1) "https://x/r" c3Times c3OutcomesAllRedirect).2.2
      (fun j _ => rfl)

/-- C4: when a matcher is configured and the URL fails it, `validateLink`
returns the Skipped Result immediately — with status code 0, no error, zero
duration, not broken — and the cache comes back unchanged. Because `head` and
`cache` are universally quantified on both sides, the outcome is independent of
the network and of the cache contents: no cache lookup or write and no probe
influence the result. -/
theorem C4_skip_excluded (v : Validator) (m : URLMatcher) (head : String → Response)
    (cache : Cache) (sourceURL : String) (link : Link)
    (hm : v.urlMatcher = some m) (hc : m.ShouldCheck link.url = false) :
    v.validateLink head cache sourceURL link =
      ({ sourceURL := sourceURL, targetURL := link.url, statusCode := 0
         status := "Skipped (excluded by pattern)", error := none
         isExternal := link.isExternal, tag := link.tag, linkText := link.text
         duration := 0, isBroken := false }, cache) := by
  simp [Validator.validateLink, Validator.shouldSkip, hm, hc]

/-- Witness for C4 at a concrete excluded URL, with a nonempty cache and a
network oracle that would answer 500 if it were ever consulted. -/
theorem C4_skip_excluded_witness :
    c4Validator.validateLink
      (fun u => { statusCode := 500, status := "500 Internal Server Error", url := u
                  finalUrl := u, error := none, duration := 3 })
      [("https://x/other", syntheticResult "https://x/other" (.msg "seed"))]
      "https://x/page" c4Link =
      ({ sourceURL := "https://x/page", targetURL := c4Link.url, statusCode := 0
         status := "Skipped (excluded by pattern)", error := none
         isExternal := c4Link.isExternal, tag := c4Link.tag, linkText := c4Link.text
         duration := 0, isBroken := false },
       [("https://x/other", syntheticResult "https://x/other" (.msg "seed"))]) := by
  exact C4_skip_excluded c4Validator c4Matcher
    (fun u => { statusCode := 500, status := "500 Internal Server Error", url := u
                finalUrl := u, error := none, duration := 3 })
    [("https://x/other", syntheticResult "https://x/other" (.msg "seed"))]
    "https://x/page" c4Link rfl (by decide)

/-- C7 counterexample: the page-level limit is not a caller-supplied
configuration value. The only concurrency value a caller can supply is
`NewValidator`'s link-concurrency argument (3 here, spec §6's configuration
record); yet for 5 pages the semaphore created in `ValidateMultiplePages` has
capacity 5 = min(10, 5), not min(3, 5) — the page limit is the hardcoded 10 of
reporter.go:792. -/
theorem C7_page_concurrency_counterexample :
    (NewValidator 30 3 3 false).concurrency = 3
    ∧ pageSemCapacity 5 = 5
    ∧ ¬ pageSemCapacity 5 = min (NewValidator 30 3 3 false).concurrency 5 := by
  refine ⟨rfl, by decide, by decide⟩

/-- C7 as amended: the number of concurrently processed page pipelines is
bounded by min(10, number of pages) — the capacity of the page semaphore — with
10 a hardcoded constant in `ValidateMultiplePages`, not a caller-supplied
configuration value. -/
theorem C7_page_concurrency (numPageURLs : Nat) :
    pageSemCapacity numPageURLs = min 10 numPageURLs := by
  simp only [pageSemCapacity]
  split <;> omega

/-- C9: with rate 0, `Wait` returns immediately and `Stop` is a no-op; and for
any limiter, any positive number of `Stop` calls leaves the state a single
`Stop` call would, with at most one call — exactly one, for a freshly created
limiter with positive rate — actually terminating the background generator. -/
theorem C9_ratelimiter_stop (rl : RateLimiter) (r : Rat) (n : Nat) :
    ((NewRateLimiter 0).wait = .immediate)
    ∧ ((NewRateLimiter 0).stop = (NewRateLimiter 0, false))
    ∧ (1 ≤ n → rl.stopN n = rl.stop.1)
    ∧ (rl.stopCount n ≤ 1)
    ∧ (0 < r → (NewRateLimiter r).stopCount (n + 1) = 1) := by
  have hstop : ∀ s : RateLimiter, (s.stop.1).stop = (s.stop.1, false) := by
    intro s
    by_cases h0 : s.requestsPerSecond = 0
    · simp [RateLimiter.stop, h0]
    · by_cases hd : s.stopDone
      · simp [RateLimiter.stop, h0, hd]
      · simp [RateLimiter.stop, h0, hd]
  have hN : ∀ k, 1 ≤ k → rl.stopN k = rl.stop.1 := by
    intro k hk
    induction k with
    | zero => omega
    | succ k ih =>
      match k, ih with
      | 0, _ => rfl
      | k + 1, ih =>
        show ((rl.stopN (k + 1)).stop).1 = rl.stop.1
        rw [ih (by omega), hstop]
  refine ⟨by decide, by decide, hN n, ?_, ?_⟩
  · induction n with
    | zero => simp [RateLimiter.stopCount]
    | succ n ih =>
      match n, ih with
      | 0, _ =>
        show 0 + (if rl.stop.2 then 1 else 0) ≤ 1
        split <;> omega
      | n + 1, ih =>
        show rl.stopCount (n + 1) + (if ((rl.stopN (n + 1)).stop).2 then 1 else 0) ≤ 1
        rw [hN (n + 1) (by omega), hstop]
        simpa using ih
  · intro hr
    have hfresh : (NewRateLimiter r).stop.2 = true := by
      have hne : ¬ (r ≤ 0) := not_le.mpr hr
      have h0 : ¬ (r = 0) := by intro h; rw [h] at hr; exact lt_irrefl 0 hr
      simp [NewRateLimiter, hne, RateLimiter.stop, h0]
    have hNr : ∀ k, 1 ≤ k → (NewRateLimiter r).stopN k = (NewRateLimiter r).stop.1 := by
      intro k hk
      induction k with
      | zero => omega
      | succ k ih =>
        match k, ih with
        | 0, _ => rfl
        | k + 1, ih =>
          show (((NewRateLimiter r).stopN (k + 1)).stop).1 = (NewRateLimiter r).stop.1
          rw [ih (by omega), hstop]
    induction n with
    | zero => simp [RateLimiter.stopCount, RateLimiter.stopN, hfresh]
    | succ n ih =>
      show (NewRateLimiter r).stopCount (n + 1) +
          (if (((NewRateLimiter r).stopN (n + 1)).stop).2 then 1 else 0) = 1
      rw [hNr (n + 1) (by omega), hstop]
      simpa using ih

/-- Witness for C9 at concrete inputs: rate 2, five `Stop` calls: same state as
one call, and the generator was terminated exactly once. -/
theorem C9_ratelimiter_stop_witness :
    ((NewRateLimiter 0).wait = .immediate)
    ∧ ((NewRateLimiter 0).stop = (NewRateLimiter 0, false))
    ∧ ((NewRateLimiter 2).stopN 5 = (NewRateLimiter 2).stop.1)
    ∧ ((NewRateLimiter 2).stopCount 5 ≤ 1)
    ∧ ((NewRateLimiter 2).stopCount (4 + 1) = 1) := by
  have h := C9_ratelimiter_stop (NewRateLimiter 2) 2 5
  have h' := C9_ratelimiter_stop (NewRateLimiter 2) 2 4
  exact ⟨h.1, h.2.1, h.2.2.1 (by decide), h.2.2.2.1, h'.2.2.2.2 (by decide)⟩

theorem find_key_filter (c : List (String × Result)) (u url : String) (h : ¬ u = url) :
    List.find? (fun e => decide (e.1 = u)) (List.filter (fun e => decide ¬(e.1 = url)) c)
      = List.find? (fun e => decide (e.1 = u)) c := by
  induction c with
  | nil => rfl
  | cons a t ih =>
    by_cases hk : a.1 = url
    · rw [List.filter_cons_of_neg (by simp [hk]),
        List.find?_cons_of_neg t (by simp [hk]; exact fun hh => h hh.symm)]
      exact ih
    · rw [List.filter_cons_of_pos (by simp [hk])]
      by_cases hu : a.1 = u
      · rw [List.find?_cons_of_pos _ (by simp [hu]), List.find?_cons_of_pos t (by simp [hu])]
      · rw [List.find?_cons_of_neg _ (by simp [hu]), List.find?_cons_of_neg t (by simp [hu])]
        exact ih

theorem cache_find_insert (c : Cache) (url u : String) (r : Result) :
    (c.insert url r).find u = if u = url then some r else c.find u := by
  by_cases h : u = url
  · subst h
    simp [Cache.find, Cache.insert, List.find?_cons_of_pos]
  · simp only [Cache.find, Cache.insert, if_neg h]
    rw [List.find?_cons_of_neg _ (by simp; exact fun hh => h hh.symm),
      find_key_filter c u url h]

theorem cache_countKey_insert_self (c : Cache) (url : String) (r : Result) :
    (c.insert url r).countKey url = 1 := by
  simp only [Cache.insert, Cache.countKey, List.countP_cons, List.countP_filter]
  have : (List.countP (fun e => decide (e.1 = url) && decide ¬(e.1 = url)) c) = 0 := by
    rw [List.countP_eq_zero]
    intro a _
    by_cases h : a.1 = url <;> simp [h]
  simp [this]

theorem cache_countKey_insert_ne (c : Cache) (url u : String) (r : Result)
    (h : ¬ u = url) :
    (c.insert url r).countKey u = c.countKey u := by
  simp only [Cache.insert, Cache.countKey, List.countP_cons, List.countP_filter]
  have h1 : (if decide ((url, r).1 = u) = true then 1 else 0) = 0 := by
    simp; exact fun hh => h hh.symm
  have h2 : List.countP (fun e => decide (e.1 = u) && decide ¬(e.1 = url)) c
      = List.countP (fun e => decide (e.1 = u)) c := by
    apply List.countP_congr
    intro a _
    by_cases ha : a.1 = u
    · simp [ha, h]
    · simp [ha]
  rw [h1, h2]
  simp

theorem cache_find_mem (c : Cache) (u : String) (e : Result)
    (h : c.find u = some e) : (u, e) ∈ c.entries := by
  simp only [Cache.find, Option.map_eq_some'] at h
  obtain ⟨p, hp, hpe⟩ := h
  have hk : p.1 = u := by simpa using List.find?_some hp
  have hm := List.mem_of_find?_eq_some hp
  have : p = (u, e) := by
    cases p
    simp_all
  rw [← this]
  exact hm

theorem cache_countKey_pos (c : Cache) (u : String) (e : Result)
    (h : c.find u = some e) : 0 < c.countKey u := by
  have hmm := cache_find_mem c u e h
  simp only [Cache.countKey, List.countP_pos_iff]
  exact ⟨(u, e), hmm, by simp⟩

theorem cacheInv_insert (c : Cache) (url : String) (r : Result)
    (hinv : CacheInv c) (hurl : r.targetURL = url) (hwf : wfResult r) :
    CacheInv (c.insert url r) := by
  constructor
  · intro u
    by_cases h : u = url
    · rw [h, cache_countKey_insert_self]
    · rw [cache_countKey_insert_ne c url u r h]
      exact hinv.1 u
  · intro p hp
    rcases hp with _ | hp
    · exact ⟨hurl, hwf⟩
    · rename_i hp
      exact hinv.2 p (List.mem_of_mem_filter hp)

theorem freshIsBroken (e : Option GoError) (code : Nat) :
    (if e.isSome then true
     else if 400 ≤ code then true
     else if 300 ≤ code ∧ code < 400 then false
     else false) = (e.isSome || decide (400 ≤ code)) := by
  by_cases he : e.isSome <;> by_cases hc : 400 ≤ code <;>
    by_cases h3 : 300 ≤ code ∧ code < 400 <;> simp [he, hc, h3]

theorem validateLink_find_mono (v : Validator) (head : String → Response)
    (cache : Cache) (s : String) (l : Link) (u : String) (e : Result)
    (h : cache.find u = some e) :
    ((v.validateLink head cache s l).2).find u = some e := by
  cases hs : v.shouldSkip l.url with
  | true => simpa [Validator.validateLink, hs] using h
  | false =>
    cases hf : cache.find l.url with
    | some cached => simpa [Validator.validateLink, hs, hf] using h
    | none =>
      have hne : ¬ u = l.url := by
        intro hh
        rw [hh, hf] at h
        cases h
      simp only [Validator.validateLink, hs, hf]
      simp only [Bool.false_eq_true, if_false]
      rw [cache_find_insert]
      simp [hne, h]

theorem validateLink_inv (v : Validator) (head : String → Response) (cache : Cache)
    (s : String) (l : Link) (hinv : CacheInv cache) :
    CacheInv (v.validateLink head cache s l).2 := by
  cases hs : v.shouldSkip l.url with
  | true => simpa [Validator.validateLink, hs] using hinv
  | false =>
    cases hf : cache.find l.url with
    | some cached => simpa [Validator.validateLink, hs, hf] using hinv
    | none =>
      simp only [Validator.validateLink, hs, hf]
      simp only [Bool.false_eq_true, if_false]
      exact cacheInv_insert cache l.url _ hinv rfl
        (by simpa [wfResult] using freshIsBroken (head l.url).error (head l.url).statusCode)

theorem validateLink_result (v : Validator) (head : String → Response) (cache : Cache)
    (s : String) (l : Link) (hinv : CacheInv cache) :
    wfResult (v.validateLink head cache s l).1
    ∧ resultOfLink s l (v.validateLink head cache s l).1 := by
  cases hs : v.shouldSkip l.url with
  | true =>
    constructor
    · simp [Validator.validateLink, hs, wfResult]
    · simp [Validator.validateLink, hs, resultOfLink]
  | false =>
    cases hf : cache.find l.url with
    | some cached =>
      have hprop := hinv.2 _ (cache_find_mem cache l.url cached hf)
      constructor
      · simp only [Validator.validateLink, hs, hf]
        simpa [wfResult] using hprop.2
      · simp only [Validator.validateLink, hs, hf]
        simp only [Bool.false_eq_true, if_false]
        exact ⟨rfl, hprop.1, rfl, rfl⟩
    | none =>
      constructor
      · simp only [Validator.validateLink, hs, hf]
        simp only [Bool.false_eq_true, if_false]
        simpa [wfResult] using freshIsBroken (head l.url).error (head l.url).statusCode
      · simp [Validator.validateLink, hs, hf, resultOfLink]

theorem validateLink_entry (v : Validator) (head : String → Response) (cache : Cache)
    (s : String) (l : Link) (hs : v.shouldSkip l.url = false) :
    ∃ e : Result, ((v.validateLink head cache s l).2).find l.url = some e
      ∧ (v.validateLink head cache s l).1.statusCode = e.statusCode
      ∧ (v.validateLink head cache s l).1.error = e.error
      ∧ (v.validateLink head cache s l).1.duration = e.duration := by
  cases hf : cache.find l.url with
  | some cached =>
    refine ⟨cached, ?_, ?_, ?_, ?_⟩ <;> simp [Validator.validateLink, hs, hf]
  | none =>
    refine ⟨(v.validateLink head cache s l).1, ?_, rfl, rfl, rfl⟩
    simp only [Validator.validateLink, hs, hf]
    simp only [Bool.false_eq_true, if_false]
    rw [cache_find_insert]
    simp

theorem validateLinks_spec (v : Validator) (head : String → Response) (s : String) :
    ∀ (links : List Link) (cache : Cache), CacheInv cache →
      CacheInv (v.validateLinks head s links cache).2
      ∧ (∀ u e, cache.find u = some e →
          ((v.validateLinks head s links cache).2).find u = some e)
      ∧ ∀ r ∈ (v.validateLinks head s links cache).1,
          wfResult r
          ∧ (v.shouldSkip r.targetURL = false →
              ∃ e, ((v.validateLinks head s links cache).2).find r.targetURL = some e
                ∧ r.statusCode = e.statusCode ∧ r.error = e.error
                ∧ r.duration = e.duration) := by
  intro links
  induction links with
  | nil =>
    intro cache hinv
    refine ⟨hinv, fun u e h => h, ?_⟩
    intro r hr
    simp [Validator.validateLinks] at hr
  | cons l rest ih =>
    intro cache hinv
    have hrw : v.validateLinks head s (l :: rest) cache =
        ((v.validateLink head cache s l).1 ::
          (v.validateLinks head s rest (v.validateLink head cache s l).2).1,
         (v.validateLinks head s rest (v.validateLink head cache s l).2).2) := rfl
    have hinv1 := validateLink_inv v head cache s l hinv
    obtain ⟨ihInv, ihMono, ihRes⟩ := ih (v.validateLink head cache s l).2 hinv1
    rw [hrw]
    refine ⟨ihInv, ?_, ?_⟩
    · intro u e h
      exact ihMono u e (validateLink_find_mono v head cache s l u e h)
    · intro r hr
      rcases List.mem_cons.mp hr with hr | hr
      · subst hr
        obtain ⟨hwf, hof⟩ := validateLink_result v head cache s l hinv
        refine ⟨hwf, ?_⟩
        intro hsk
        rw [hof.2.1] at hsk
        obtain ⟨e, hfind, h1, h2, h3⟩ := validateLink_entry v head cache s l hsk
        exact ⟨e, by rw [hof.2.1]; exact ihMono _ e hfind, h1, h2, h3⟩
      · exact ihRes r hr

theorem pageFailure_synthetic (w : World) (p : String) (e : GoError)
    (h : pageFailure w p = some e) : (syntheticResult p e).isSynthetic = true := by
  unfold pageFailure at h
  cases hg : (w.get p).error with
  | some ge =>
    rw [hg] at h
    simp only [Option.some.injEq] at h
    subst h
    rfl
  | none =>
    rw [hg] at h
    by_cases hst : (w.get p).statusCode ≠ 200
    · rw [if_pos hst] at h
      simp only [Option.some.injEq] at h
      subst h
      rfl
    · rw [if_neg hst] at h
      cases hx : w.extract p with
      | error xe =>
        rw [hx] at h
        simp only [Option.some.injEq] at h
        subst h
        rfl
      | ok links =>
        rw [hx] at h
        cases h

theorem pageChunk_fail (v : Validator) (w : World) (cache : Cache) (p : String)
    (ce : Bool) (e : GoError) (h : pageFailure w p = some e) :
    v.pageChunk w cache p ce = ([syntheticResult p e], cache) := by
  unfold pageFailure at h
  unfold Validator.pageChunk Validator.validatePageInternal
  cases hg : (w.get p).error with
  | some ge =>
    rw [hg] at h
    simp only [Option.some.injEq] at h
    simp [hg, h]
  | none =>
    rw [hg] at h
    by_cases hst : (w.get p).statusCode ≠ 200
    · rw [if_pos hst] at h
      simp only [Option.some.injEq] at h
      simp [hg, hst, h]
    · rw [if_neg hst] at h
      cases hx : w.extract p with
      | error xe =>
        rw [hx] at h
        simp only [Option.some.injEq] at h
        simp [hg, hst, hx, h]
      | ok links =>
        rw [hx] at h
        cases h

theorem pageChunk_ok (v : Validator) (w : World) (cache : Cache) (p : String)
    (ce : Bool) (h : pageFailure w p = none) :
    ∃ links, w.extract p = .ok links
      ∧ v.pageChunk w cache p ce =
          v.validateLinks w.head p (FilterLinks links ce) cache := by
  unfold pageFailure at h
  cases hg : (w.get p).error with
  | some ge => rw [hg] at h; cases h
  | none =>
    rw [hg] at h
    by_cases hst : (w.get p).statusCode ≠ 200
    · rw [if_pos hst] at h; cases h
    · rw [if_neg hst] at h
      cases hx : w.extract p with
      | error xe => rw [hx] at h; cases h
      | ok links =>
        refine ⟨links, rfl, ?_⟩
        unfold Validator.pageChunk Validator.validatePageInternal
        simp [hg, hst, hx]

theorem runPages_spec (v : Validator) (w : World) (ce : Bool) :
    ∀ (pages : List String) (cache : Cache), CacheInv cache →
      CacheInv (v.runPages w ce pages cache).2
      ∧ (∀ u e, cache.find u = some e →
          ((v.runPages w ce pages cache).2).find u = some e)
      ∧ ∀ r ∈ (v.runPages w ce pages cache).1,
          wfResult r
          ∧ (r.isSynthetic = false → v.shouldSkip r.targetURL = false →
              ∃ e, ((v.runPages w ce pages cache).2).find r.targetURL = some e
                ∧ r.statusCode = e.statusCode ∧ r.error = e.error
                ∧ r.duration = e.duration) := by
  intro pages
  induction pages with
  | nil =>
    intro cache hinv
    refine ⟨hinv, fun u e h => h, ?_⟩
    intro r hr
    simp [Validator.runPages] at hr
  | cons p rest ih =>
    intro cache hinv
    have hrw : v.runPages w ce (p :: rest) cache =
        ((v.pageChunk w cache p ce).1 ++
          (v.runPages w ce rest (v.pageChunk w cache p ce).2).1,
         (v.runPages w ce rest (v.pageChunk w cache p ce).2).2) := rfl
    cases hpf : pageFailure w p with
    | some e =>
      have hch := pageChunk_fail v w cache p ce e hpf
      obtain ⟨ihInv, ihMono, ihRes⟩ := ih cache hinv
      rw [hrw, hch]
      refine ⟨by simpa [hch] using ihInv, ?_, ?_⟩
      · intro u ent h
        simpa [hch] using ihMono u ent h
      · intro r hr
        simp only [hch] at hr ⊢
        rcases List.mem_append.mp hr with hr | hr
        · have : r = syntheticResult p e := by simpa using hr
          subst this
          refine ⟨by simp [wfResult, syntheticResult], ?_⟩
          intro hsyn
          rw [pageFailure_synthetic w p e hpf] at hsyn
          cases hsyn
        · exact ihRes r hr
    | none =>
      obtain ⟨links, hx, hch⟩ := pageChunk_ok v w cache p ce hpf
      have vspec := validateLinks_spec v w.head p (FilterLinks links ce) cache hinv
      obtain ⟨vInv, vMono, vRes⟩ := vspec
      obtain ⟨ihInv, ihMono, ihRes⟩ := ih (v.pageChunk w cache p ce).2 (by rw [hch]; exact vInv)
      rw [hrw]
      refine ⟨ihInv, ?_, ?_⟩
      · intro u ent h
        refine ihMono u ent ?_
        rw [hch]
        exact vMono u ent h
      · intro r hr
        rcases List.mem_append.mp hr with hr | hr
        · rw [hch] at hr
          obtain ⟨hwf, hentry⟩ := vRes r hr
          refine ⟨hwf, ?_⟩
          intro _ hsk
          obtain ⟨ent, hfind, h1, h2, h3⟩ := hentry hsk
          refine ⟨ent, ?_, h1, h2, h3⟩
          refine ihMono _ ent ?_
          rw [hch]
          exact hfind
        · exact ihRes r hr

theorem aggClass_eq_spec (r : Result) (h : wfResult r) :
    aggClass r = specClassify r.error r.statusCode := by
  have h' : r.isBroken = (r.error.isSome || decide (400 ≤ r.statusCode)) := h
  cases he : r.error with
  | some ge => simp [aggClass, specClassify, h', he]
  | none =>
    by_cases h4 : 400 ≤ r.statusCode
    · simp [aggClass, specClassify, h', he, h4]
    · by_cases h3 : 300 ≤ r.statusCode ∧ r.statusCode < 400 <;>
        simp [aggClass, specClassify, h', he, h4, h3]

theorem cacheInv_nil : CacheInv ([] : Cache) :=
  ⟨fun _ => Nat.zero_le 1, fun p hp => absurd hp (List.not_mem_nil p)⟩

/-- C1: every Result a run over any pages produces — freshly probed, taken from
the cache, skipped, or synthetic — lands in the aggregation bucket prescribed
by the spec rule: `Error != nil → Broken`, else `StatusCode >= 400 → Broken`,
else `300 <= StatusCode < 400 → Warning`, otherwise `Success`. In particular
status 299 classifies as Success, 300 and 399 as Warning, 400 as Broken, and a
transport error with status 0 as Broken (see the witness). -/
theorem C1_classification (v : Validator) (w : World) (ce : Bool)
    (pages : List String) (r : Result)
    (hr : r ∈ (v.runPages w ce pages []).1) :
    aggClass r = specClassify r.error r.statusCode := by
  obtain ⟨_, _, hres⟩ := runPages_spec v w ce pages [] cacheInv_nil
  exact aggClass_eq_spec r (hres r hr).1

/-- Witness for C1 on a concrete run whose five references answer with the
boundary statuses 299, 300, 399, 400 and a transport error: the rule holds for
each produced Result, and the buckets are Success, Warning, Warning, Broken,
Broken respectively. -/
theorem C1_classification_witness :
    (aggClass (c1FreshResult "https://t/299" 299 "299") =
        specClassify (c1FreshResult "https://t/299" 299 "299").error 299
      ∧ aggClass (c1FreshResult "https://t/299" 299 "299") = .success)
    ∧ (aggClass (c1FreshResult "https://t/300" 300 "300 Multiple Choices") =
        specClassify (c1FreshResult "https://t/300" 300 "300 Multiple Choices").error 300
      ∧ aggClass (c1FreshResult "https://t/300" 300 "300 Multiple Choices") = .warning)
    ∧ (aggClass (c1FreshResult "https://t/399" 399 "399") =
        specClassify (c1FreshResult "https://t/399" 399 "399").error 399
      ∧ aggClass (c1FreshResult "https://t/399" 399 "399") = .warning)
    ∧ (aggClass (c1FreshResult "https://t/400" 400 "400 Bad Request") =
        specClassify (c1FreshResult "https://t/400" 400 "400 Bad Request").error 400
      ∧ aggClass (c1FreshResult "https://t/400" 400 "400 Bad Request") = .broken)
    ∧ (aggClass c1ErrResult = specClassify c1ErrResult.error 0
      ∧ aggClass c1ErrResult = .broken) := by
  refine ⟨⟨?_, by decide⟩, ⟨?_, by decide⟩, ⟨?_, by decide⟩, ⟨?_, by decide⟩,
    ⟨?_, by decide⟩⟩
  · exact C1_classification c1Validator c1World true ["https://s/p"] _ (by decide)
  · exact C1_classification c1Validator c1World true ["https://s/p"] _ (by decide)
  · exact C1_classification c1Validator c1World true ["https://s/p"] _ (by decide)
  · exact C1_classification c1Validator c1World true ["https://s/p"] _ (by decide)
  · exact C1_classification c1Validator c1World true ["https://s/p"] _ (by decide)

/-- C5 counterexample: with an exclusion matcher configured, a URL that appears
as a reference is Skipped and gets no cache entry at all — zero entries, not
the "exactly one" the claim asserts for every referenced URL. -/
theorem C5_cache_counterexample :
    (c5ExclValidator.runPages c5World true ["https://x/p"] []).1 =
      [{ sourceURL := "https://x/p", targetURL := "https://x/a", statusCode := 0
         status := "Skipped (excluded by pattern)", error := none, isExternal := false
         tag := "a", linkText := "", duration := 0, isBroken := false }]
    ∧ ((c5ExclValidator.runPages c5World true ["https://x/p"] []).2).countKey
        "https://x/a" = 0 := by
  refine ⟨by decide, by decide⟩

/-- C5 as amended: at the end of every run (from the empty cache `NewValidator`
creates), every URL that appears as a reference and passes the configured
matcher has exactly one cache entry, and every non-synthetic Result produced
for that URL carries the StatusCode, Error and Duration of that single entry
(SourceURL, Tag and LinkText differ per occurrence); a URL the matcher excludes
is Skipped and receives no cache entry. -/
theorem C5_cache_dedup (v : Validator) (w : World) (ce : Bool) (pages : List String)
    (u : String) (r : Result)
    (hr : r ∈ (v.runPages w ce pages []).1)
    (hu : r.targetURL = u)
    (hsyn : r.isSynthetic = false)
    (hsk : v.shouldSkip u = false) :
    ∃ e : Result, ((v.runPages w ce pages []).2).find u = some e
      ∧ ((v.runPages w ce pages []).2).countKey u = 1
      ∧ r.statusCode = e.statusCode ∧ r.error = e.error ∧ r.duration = e.duration := by
  obtain ⟨hinvEnd, _, hres⟩ := runPages_spec v w ce pages [] cacheInv_nil
  obtain ⟨e, hfind, h1, h2, h3⟩ := (hres r hr).2 hsyn (by rw [hu]; exact hsk)
  rw [hu] at hfind
  have hle := hinvEnd.1 u
  have hpos := cache_countKey_pos _ u e hfind
  exact ⟨e, hfind, by omega, h1, h2, h3⟩

/-- Witness for C5 as amended, on a concrete one-page run with one reference:
the produced Result's URL has a single cache entry carrying its status code,
error and duration. -/
theorem C5_cache_dedup_witness :
    ∃ e : Result,
      ((c5Validator.runPages c5World true ["https://x/p"] []).2).find "https://x/a"
        = some e
      ∧ ((c5Validator.runPages c5World true ["https://x/p"] []).2).countKey
          "https://x/a" = 1
      ∧ c5FreshResult.statusCode = e.statusCode ∧ c5FreshResult.error = e.error
      ∧ c5FreshResult.duration = e.duration :=
  C5_cache_dedup c5Validator c5World true ["https://x/p"] "https://x/a" c5FreshResult
    (by decide) (by decide) (by decide) (by decide)

theorem runLinksOrder_spec (v : Validator) (head : String → Response) (s : String)
    (links : List Link) :
    ∀ (order : List Nat) (buf : Nat → Option Result) (cache : Cache),
      CacheInv cache →
      (∀ i r, buf i = some r → ∀ l, links[i]? = some l → resultOfLink s l r) →
      (∀ i r, (runLinksOrder v head s links order buf cache).1 i = some r →
          ∀ l, links[i]? = some l → resultOfLink s l r)
      ∧ (∀ i, ((buf i).isSome = true ∨ (i ∈ order ∧ (links[i]?).isSome = true)) →
          ((runLinksOrder v head s links order buf cache).1 i).isSome = true) := by
  intro order
  induction order with
  | nil =>
    intro buf cache _ hbuf
    refine ⟨hbuf, ?_⟩
    intro i h
    rcases h with h | ⟨hmem, _⟩
    · exact h
    · exact absurd hmem (List.not_mem_nil i)
  | cons idx rest ih =>
    intro buf cache hinv hbuf
    cases hl : links[idx]? with
    | none =>
      have hrw : runLinksOrder v head s links (idx :: rest) buf cache =
          runLinksOrder v head s links rest buf cache := by
        simp [runLinksOrder, hl]
      rw [hrw]
      obtain ⟨ih1, ih2⟩ := ih buf cache hinv hbuf
      refine ⟨ih1, ?_⟩
      intro i h
      apply ih2
      rcases h with h | ⟨hmem, hsome⟩
      · exact Or.inl h
      · rcases List.mem_cons.mp hmem with rfl | hmem
        · rw [hl] at hsome
          cases hsome
        · exact Or.inr ⟨hmem, hsome⟩
    | some l =>
      have hrw : runLinksOrder v head s links (idx :: rest) buf cache =
          runLinksOrder v head s links rest
            (fun j => if j = idx then some (v.validateLink head cache s l).1 else buf j)
            (v.validateLink head cache s l).2 := by
        simp [runLinksOrder, hl]
      rw [hrw]
      have hinv1 := validateLink_inv v head cache s l hinv
      have hbuf1 : ∀ i r,
          (fun j => if j = idx then some (v.validateLink head cache s l).1 else buf j) i
            = some r →
          ∀ l', links[i]? = some l' → resultOfLink s l' r := by
        intro i r hir l' hl'
        by_cases hij : i = idx
        · subst hij
          have hir' : (v.validateLink head cache s l).1 = r := by simpa using hir
          have hll : l' = l := by
            rw [hl] at hl'
            injection hl' with hx
            exact hx.symm
          rw [hll, ← hir']
          exact (validateLink_result v head cache s l hinv).2
        · have hir' : buf i = some r := by simpa [hij] using hir
          exact hbuf i r hir' l' hl'
      obtain ⟨ih1, ih2⟩ := ih _ _ hinv1 hbuf1
      refine ⟨ih1, ?_⟩
      intro i h
      apply ih2
      rcases h with h | ⟨hmem, hsome⟩
      · by_cases hij : i = idx
        · subst hij
          exact Or.inl (by simp)
        · exact Or.inl (by simpa [hij] using h)
      · rcases List.mem_cons.mp hmem with rfl | hmem
        · exact Or.inl (by simp)
        · exact Or.inr ⟨hmem, hsome⟩

/-- C6: under any completion order of the per-reference goroutines (any list of
slot indices, covering each reference that runs), the Result stored at index
`i` of the output buffer is a Result of reference `i` itself — carrying the
current page as SourceURL and reference `i`'s URL, tag and link text — no
matter where `i` occurs in the completion order. -/
theorem C6_order_preservation (v : Validator) (head : String → Response)
    (sourceURL : String) (links : List Link) (cache : Cache) (order : List Nat)
    (hinv : CacheInv cache) (i : Nat) (l : Link)
    (hi : links[i]? = some l) (hmem : i ∈ order) :
    ∃ r : Result,
      (v.validateLinksOrdered head sourceURL links cache order).1 i = some r
      ∧ r.sourceURL = sourceURL ∧ r.targetURL = l.url ∧ r.tag = l.tag
      ∧ r.linkText = l.text := by
  obtain ⟨h1, h2⟩ := runLinksOrder_spec v head sourceURL links order (fun _ => none)
    cache hinv (fun i r hir => by cases hir)
  have hsome := h2 i (Or.inr ⟨hmem, by rw [hi]; rfl⟩)
  obtain ⟨r, hr⟩ := Option.isSome_iff_exists.mp hsome
  obtain ⟨ha, hb, hc, hd⟩ := h1 i r hr l hi
  exact ⟨r, hr, ha, hb, hc, hd⟩

/-- Witness for C6 on a concrete page with three references completing in the
order 2, 0, 1: slot 1 holds the Result of reference 1. -/
theorem C6_order_preservation_witness :
    ∃ r : Result,
      (c6Validator.validateLinksOrdered c6Head "https://x/p" c6Links [] [2, 0, 1]).1 1
        = some r
      ∧ r.sourceURL = "https://x/p" ∧ r.targetURL = (anchorLink "https://x/1").url
      ∧ r.tag = (anchorLink "https://x/1").tag
      ∧ r.linkText = (anchorLink "https://x/1").text :=
  C6_order_preservation c6Validator c6Head "https://x/p" c6Links [] [2, 0, 1]
    cacheInv_nil 1 (anchorLink "https://x/1") (by decide) (by decide)

theorem runPages_append (v : Validator) (w : World) (ce : Bool) :
    ∀ (xs ys : List String) (cache : Cache),
      v.runPages w ce (xs ++ ys) cache =
        ((v.runPages w ce xs cache).1
            ++ (v.runPages w ce ys (v.runPages w ce xs cache).2).1,
         (v.runPages w ce ys (v.runPages w ce xs cache).2).2) := by
  intro xs
  induction xs with
  | nil => intro ys cache; rfl
  | cons p rest ih =>
    intro ys cache
    have h2 : v.runPages w ce (p :: rest) cache =
        ((v.pageChunk w cache p ce).1
            ++ (v.runPages w ce rest (v.pageChunk w cache p ce).2).1,
         (v.runPages w ce rest (v.pageChunk w cache p ce).2).2) := rfl
    show ((v.pageChunk w cache p ce).1
            ++ (v.runPages w ce (rest ++ ys) (v.pageChunk w cache p ce).2).1,
          (v.runPages w ce (rest ++ ys) (v.pageChunk w cache p ce).2).2) = _
    rw [ih ys (v.pageChunk w cache p ce).2, h2]
    simp [List.append_assoc]

/-- C8: for a page that fails (fetch error, non-200 page status, or extraction
error — exactly the cases `pageFailure` reports), any run containing it
produces for it exactly one synthetic Result with SourceURL "sitemap",
TargetURL the page URL, StatusCode 0 and Broken classification; the failing
page leaves the cache untouched, so all other pages contribute exactly the
results they contribute in the run without the failing page. -/
theorem C8_page_isolation (v : Validator) (w : World) (ce : Bool) (p : String)
    (e : GoError) (pre post : List String) (cache : Cache)
    (h : pageFailure w p = some e) :
    (v.runPages w ce (pre ++ p :: post) cache).1 =
      (v.runPages w ce pre cache).1
        ++ syntheticResult p e
          :: (v.runPages w ce post (v.runPages w ce pre cache).2).1
    ∧ (v.runPages w ce (pre ++ post) cache).1 =
      (v.runPages w ce pre cache).1
        ++ (v.runPages w ce post (v.runPages w ce pre cache).2).1
    ∧ (syntheticResult p e).sourceURL = "sitemap"
    ∧ (syntheticResult p e).targetURL = p
    ∧ (syntheticResult p e).statusCode = 0
    ∧ aggClass (syntheticResult p e) = .broken := by
  refine ⟨?_, ?_, rfl, rfl, rfl, rfl⟩
  · have hchunk := pageChunk_fail v w (v.runPages w ce pre cache).2 p ce e h
    have hcons : v.runPages w ce (p :: post) (v.runPages w ce pre cache).2 =
        (syntheticResult p e
            :: (v.runPages w ce post (v.runPages w ce pre cache).2).1,
         (v.runPages w ce post (v.runPages w ce pre cache).2).2) := by
      rw [show v.runPages w ce (p :: post) (v.runPages w ce pre cache).2 =
          ((v.pageChunk w (v.runPages w ce pre cache).2 p ce).1
              ++ (v.runPages w ce post
                  (v.pageChunk w (v.runPages w ce pre cache).2 p ce).2).1,
           (v.runPages w ce post
              (v.pageChunk w (v.runPages w ce pre cache).2 p ce).2).2) from rfl,
        hchunk]
      simp
    rw [runPages_append v w ce pre (p :: post) cache, hcons]
  · rw [runPages_append v w ce pre post cache]

/-- Witness for C8 on a concrete three-page run whose middle page answers 404:
it yields exactly one synthetic Broken Result between the neighbouring pages'
results, which match the run without it. -/
theorem C8_page_isolation_witness :
    (c8Validator.runPages c8World true
        (["https://s/a"] ++ "https://s/bad" :: ["https://s/c"]) []).1 =
      (c8Validator.runPages c8World true ["https://s/a"] []).1
        ++ syntheticResult "https://s/bad" (.pageStatus 404)
          :: (c8Validator.runPages c8World true ["https://s/c"]
                (c8Validator.runPages c8World true ["https://s/a"] []).2).1
    ∧ (c8Validator.runPages c8World true (["https://s/a"] ++ ["https://s/c"]) []).1 =
      (c8Validator.runPages c8World true ["https://s/a"] []).1
        ++ (c8Validator.runPages c8World true ["https://s/c"]
              (c8Validator.runPages c8World true ["https://s/a"] []).2).1
    ∧ (syntheticResult "https://s/bad" (.pageStatus 404)).sourceURL = "sitemap"
    ∧ (syntheticResult "https://s/bad" (.pageStatus 404)).targetURL = "https://s/bad"
    ∧ (syntheticResult "https://s/bad" (.pageStatus 404)).statusCode = 0
    ∧ aggClass (syntheticResult "https://s/bad" (.pageStatus 404)) = .broken :=
  C8_page_isolation c8Validator c8World true "https://s/bad" (.pageStatus 404)
    ["https://s/a"] ["https://s/c"] [] (by decide)

theorem statsStep_spec (rep : ValidationReport) (r : Result) :
    (statsStep rep r).results = rep.results
    ∧ (statsStep rep r).totalLinks = rep.totalLinks + 1
    ∧ (statsStep rep r).brokenLinks + (statsStep rep r).warningLinks
        + (statsStep rep r).successLinks
      = rep.brokenLinks + rep.warningLinks + rep.successLinks + 1
    ∧ (statsStep rep r).internalLinks + (statsStep rep r).externalLinks
      = rep.internalLinks + rep.externalLinks + 1
    ∧ (statsStep rep r).successLinks = rep.successLinks
        + (if aggClass r = .success then 1 else 0)
    ∧ ∀ code, (statsStep rep r).linksByStatus code = rep.linksByStatus code
        + (if r.statusCode = code ∧ 0 < code then 1 else 0) := by
  refine ⟨?_, ?_, ?_, ?_, ?_, ?_⟩
  · unfold statsStep
    split_ifs <;> rfl
  · unfold statsStep
    split_ifs <;> rfl
  · unfold statsStep
    split_ifs <;> simp <;> omega
  · unfold statsStep
    split_ifs <;> simp <;> omega
  · unfold statsStep aggClass
    split_ifs <;> simp_all
  · intro code
    unfold statsStep
    split_ifs with h1 h2 h3 h4 h5 <;>
      by_cases hc : r.statusCode = code <;>
        simp_all [bump] <;> omega

theorem countP_cons_decide {α : Type} (p : α → Prop) [DecidablePred p] (a : α)
    (l : List α) :
    List.countP (fun x => decide (p x)) (a :: l)
      = List.countP (fun x => decide (p x)) l + (if p a then 1 else 0) := by
  rw [List.countP_cons]
  by_cases h : p a <;> simp [h]

theorem foldl_statsStep_spec (results : List Result) :
    ∀ rep : ValidationReport,
      ((results.foldl statsStep rep).results = rep.results)
      ∧ ((results.foldl statsStep rep).totalLinks = rep.totalLinks + results.length)
      ∧ ((results.foldl statsStep rep).brokenLinks
          + (results.foldl statsStep rep).warningLinks
          + (results.foldl statsStep rep).successLinks
        = rep.brokenLinks + rep.warningLinks + rep.successLinks + results.length)
      ∧ ((results.foldl statsStep rep).internalLinks
          + (results.foldl statsStep rep).externalLinks
        = rep.internalLinks + rep.externalLinks + results.length)
      ∧ ((results.foldl statsStep rep).successLinks = rep.successLinks
          + results.countP (fun r => decide (aggClass r = .success)))
      ∧ ∀ code, (results.foldl statsStep rep).linksByStatus code
          = rep.linksByStatus code
            + results.countP (fun r => decide (r.statusCode = code ∧ 0 < code)) := by
  induction results with
  | nil =>
    intro rep
    refine ⟨rfl, by simp, by simp, by simp, by simp, by intro code; simp⟩
  | cons r rs ih =>
    intro rep
    have hstep := statsStep_spec rep r
    have hfold := ih (statsStep rep r)
    have hcons : (r :: rs).foldl statsStep rep = rs.foldl statsStep (statsStep rep r) := rfl
    rw [hcons]
    refine ⟨?_, ?_, ?_, ?_, ?_, ?_⟩
    · rw [hfold.1, hstep.1]
    · have h1 := hfold.2.1
      have h2 := hstep.2.1
      rw [List.length_cons]
      omega
    · have h1 := hfold.2.2.1
      have h2 := hstep.2.2.1
      rw [List.length_cons]
      omega
    · have h1 := hfold.2.2.2.1
      have h2 := hstep.2.2.2.1
      rw [List.length_cons]
      omega
    · have h1 := hfold.2.2.2.2.1
      have h2 := hstep.2.2.2.2.1
      rw [countP_cons_decide (fun r => aggClass r = .success) r rs, h1, h2]
      omega
    · intro code
      have h1 := hfold.2.2.2.2.2 code
      have h2 := hstep.2.2.2.2.2 code
      rw [countP_cons_decide (fun r => r.statusCode = code ∧ 0 < code) r rs, h1, h2]
      omega

/-- C10: in every report `ValidateMultiplePages` builds, the classification
counts partition the result list — TotalLinks is the length of Results,
BrokenLinks + WarningLinks + SuccessLinks = TotalLinks, and InternalLinks +
ExternalLinks = TotalLinks; a Skipped result (StatusCode 0, not broken) falls
into the success bucket, because the aggregation has no Skipped bucket and
SuccessLinks counts exactly the results in the success bucket; and status code
0 is omitted from the per-status-code histogram, which counts, per positive
code, exactly the results carrying it. -/
theorem C10_report_partition (v : Validator) (w : World) (pages : List String)
    (ce : Bool) (cache : Cache) :
    (v.ValidateMultiplePages w pages ce cache).1.totalLinks
        = ((v.ValidateMultiplePages w pages ce cache).1.results).length
    ∧ (v.ValidateMultiplePages w pages ce cache).1.brokenLinks
        + (v.ValidateMultiplePages w pages ce cache).1.warningLinks
        + (v.ValidateMultiplePages w pages ce cache).1.successLinks
      = (v.ValidateMultiplePages w pages ce cache).1.totalLinks
    ∧ (v.ValidateMultiplePages w pages ce cache).1.internalLinks
        + (v.ValidateMultiplePages w pages ce cache).1.externalLinks
      = (v.ValidateMultiplePages w pages ce cache).1.totalLinks
    ∧ (v.ValidateMultiplePages w pages ce cache).1.successLinks
      = List.countP (fun r => decide (aggClass r = .success))
          ((v.ValidateMultiplePages w pages ce cache).1.results)
    ∧ (∀ r : Result, r.statusCode = 0 → r.isBroken = false → aggClass r = .success)
    ∧ (v.ValidateMultiplePages w pages ce cache).1.linksByStatus 0 = 0
    ∧ ∀ code, (v.ValidateMultiplePages w pages ce cache).1.linksByStatus code
        = List.countP (fun r => decide (r.statusCode = code ∧ 0 < code))
            ((v.ValidateMultiplePages w pages ce cache).1.results) := by
  have hrep : (v.ValidateMultiplePages w pages ce cache).1 =
      { (v.runPages w ce pages cache).1.foldl statsStep
          { results := (v.runPages w ce pages cache).1, totalLinks := 0
            brokenLinks := 0, warningLinks := 0, successLinks := 0, externalLinks := 0
            internalLinks := 0, cachedLinks := 0, uniqueURLs := 0
            pagesProcessed := pages.length
            linksByTag := fun _ => 0, linksByStatus := fun _ => 0 } with
        uniqueURLs := uniqueCount (v.runPages w ce pages cache).1
        cachedLinks := ((v.runPages w ce pages cache).2).size } := rfl
  have hfold := foldl_statsStep_spec (v.runPages w ce pages cache).1
    { results := (v.runPages w ce pages cache).1, totalLinks := 0
      brokenLinks := 0, warningLinks := 0, successLinks := 0, externalLinks := 0
      internalLinks := 0, cachedLinks := 0, uniqueURLs := 0
      pagesProcessed := pages.length
      linksByTag := fun _ => 0, linksByStatus := fun _ => 0 }
  refine ⟨?_, ?_, ?_, ?_, ?_, ?_, ?_⟩
  · rw [hrep]
    dsimp only
    rw [hfold.2.1, hfold.1]
    simp
  · rw [hrep]
    dsimp only
    rw [hfold.2.2.1, hfold.2.1]
    simp
  · rw [hrep]
    dsimp only
    rw [hfold.2.2.2.1, hfold.2.1]
    simp
  · rw [hrep]
    dsimp only
    rw [hfold.2.2.2.2.1, hfold.1]
    simp
  · intro r h0 hb
    simp [aggClass, hb, h0]
  · rw [hrep]
    dsimp only
    rw [hfold.2.2.2.2.2 0]
    simp
  · intro code
    rw [hrep]
    dsimp only
    rw [hfold.2.2.2.2.2 code, hfold.1]
    simp

/-- Witness for C10 on a concrete run with one page whose only reference is
excluded by the matcher: the Skipped result lands in the success bucket
(SuccessLinks = 1) and the histogram stays empty at every code. -/
theorem C10_report_partition_witness :
    ((c10Validator.ValidateMultiplePages c10World ["https://x/p"] true []).1.totalLinks
        = ((c10Validator.ValidateMultiplePages c10World ["https://x/p"] true
            []).1.results).length)
    ∧ (aggClass c10Skipped = .success)
    ∧ ((c10Validator.ValidateMultiplePages c10World ["https://x/p"] true
          []).1.successLinks = 1)
    ∧ ((c10Validator.ValidateMultiplePages c10World ["https://x/p"] true
          []).1.linksByStatus 0 = 0) := by
  have h := C10_report_partition c10Validator c10World ["https://x/p"] true []
  refine ⟨h.1, ?_, ?_, h.2.2.2.2.2.1⟩
  · exact h.2.2.2.2.1 _ (by decide) (by decide)
  · rw [h.2.2.2.1]
    decide

end Linkchex
